import Mathlib

/-!
Verification of the PyMetEireann forecast/warning engine (`meteireann/__init__.py`).

Shallow embedding conventions:
* Timestamps are modelled as `Int` seconds on a single absolute axis; the calendar
  date of an instant is `dateOf t = t.fdiv 86400` (the `.date()` of the datetime).
* Python floats are modelled as exact rationals `ℚ`; `round(x, 1)` is `round1`
  (round half to even at one decimal, Python's rounding mode).
* A raw XML attribute is an `AttrVal`: `missing` (key absent → `KeyError`),
  `unparseable` (present but `float()` raises `ValueError`), or `num q`.
* Exceptions that escape a function are modelled with `Except Unit`.
* `parse_datetime` is not modelled separately: `valid_from`/`valid_to` carry the
  instants the `@from`/`@to` strings denote.
-/

/-- A raw attribute value inside a parameter node of the forecast document. -/
inductive AttrVal
  | missing
  | unparseable
  | num (q : ℚ)
deriving DecidableEq, Repr

/-- The unit-tagged attribute keys used by `get_value` (`@value`, `@mps`, `@deg`, `@percent`). -/
inductive AttrKey
  | value
  | mps
  | deg
  | percent
deriving DecidableEq, Repr

/-- One parameter node of a `location` mapping: its numeric attributes plus the
`@id` string used by `symbol` (absent `@id` is a `KeyError`). -/
structure ParamData where
  value : AttrVal := .missing
  mps : AttrVal := .missing
  deg : AttrVal := .missing
  percent : AttrVal := .missing
  id : Option String := none
deriving DecidableEq, Repr

def ParamData.attr (pd : ParamData) : AttrKey → AttrVal
  | .value => pd.value
  | .mps => pd.mps
  | .deg => pd.deg
  | .percent => pd.percent

/-- Round half to even to an integer (Python's `round` on exact values). -/
def rhe (x : ℚ) : ℤ :=
  let n := ⌊x⌋
  if x - n < 1/2 then n
  else if (1 : ℚ)/2 < x - n then n + 1
  else if n % 2 = 0 then n else n + 1

/-- Python's `round(x, 1)`. -/
def round1 (x : ℚ) : ℚ := (rhe (x * 10) : ℚ) / 10

/-- `get_value(data, value)` from the source: parse `data[value]` as a float,
convert m/s to km/h when the key is `@mps`, round to one decimal; any
`ValueError`/`IndexError`/`KeyError` yields `None`. -/
def get_value (pd : ParamData) (k : AttrKey) : Option ℚ :=
  match pd.attr k with
  | .num q => if k = .mps then some (round1 (q * 3.6)) else some (round1 q)
  | _ => none

/-- The forecast parameter names handled by `get_data`. -/
inductive Param
  | symbol
  | temperature
  | pressure
  | humidity
  | dewpointTemperature
  | precipitation
  | windSpeed
  | windGust
  | windDirection
  | fog
  | cloudiness
  | lowClouds
  | mediumClouds
  | highClouds
deriving DecidableEq, Repr

/-- A value stored in a snapshot mapping: the `symbol` id string, a number, or
the `datetime` object echoed back as `res['datetime']`. -/
inductive Value
  | str (s : String)
  | num (q : ℚ)
  | time (t : Int)
deriving DecidableEq, Repr

/-- The per-parameter branch table inside `get_data`, applied to one `location`
parameter node (`loc_data[param]`).  A missing `@id` on `symbol` is a `KeyError`,
caught by `get_data`'s `try` and thus `none`. -/
def extractParam (p : Param) (pd : ParamData) : Option Value :=
  match p with
  | .symbol => pd.id.map Value.str
  | .temperature | .pressure | .humidity | .dewpointTemperature | .precipitation =>
      (get_value pd .value).map Value.num
  | .windSpeed | .windGust => (get_value pd .mps).map Value.num
  | .windDirection => (get_value pd .deg).map Value.num
  | .fog | .cloudiness | .lowClouds | .mediumClouds | .highClouds =>
      (get_value pd .percent).map Value.num

/-- One `<time>` element of the forecast document. -/
structure TimeEntry where
  valid_from : Int
  valid_to : Int
  location : List (Param × ParamData)
deriving DecidableEq, Repr

/-- Dictionary lookup `loc_data[param]` / containment `param in loc_data`. -/
def lookupParam (loc : List (Param × ParamData)) (p : Param) : Option ParamData :=
  (loc.find? (fun q => q.1 == p)).map (fun q => q.2)

def containsParam (e : TimeEntry) (p : Param) : Bool :=
  (lookupParam e.location p).isSome

/-- The body `get_data` executes at the first entry whose location holds `param`. -/
def extractEntry (p : Param) (e : TimeEntry) : Option Value :=
  match lookupParam e.location p with
  | some pd => extractParam p pd
  | none => none

/-- `get_data(param, data)` from the source: scan the scored entries in order,
skip entries whose location lacks `param`, and return the branch-table value of
the first entry that has it (falling off the loop returns `None`). -/
def get_data (p : Param) : List (Int × TimeEntry) → Option Value
  | [] => none
  | (_, e) :: rest =>
    match lookupParam e.location p with
    | none => get_data p rest
    | some pd => extractParam p pd

/-- `average_dist`: `abs((valid_to - time).total_seconds()) + abs((valid_from - time).total_seconds())`. -/
def dist (e : TimeEntry) (t : Int) : Int :=
  |e.valid_to - t| + |e.valid_from - t|

/-- The `ordered_entries` list as built by the `get_weather` loop, before sorting:
skip an entry if `time > valid_to`, skip it if its distance exceeds
`max_hour * 3600`, otherwise append `(average_dist, time_entry)`. -/
def candidates (t mh : Int) : List TimeEntry → List (Int × TimeEntry)
  | [] => []
  | e :: rest =>
    if t > e.valid_to then candidates t mh rest
    else if dist e t > mh * 3600 then candidates t mh rest
    else (dist e t, e) :: candidates t mh rest

/-- `.date()` of an instant. -/
def dateOf (t : Int) : Int := t.fdiv 86400

/-- The daily collection slice of the `get_weather` loop for one parameter:
entries with `time > valid_to` are skipped; for an entry whose `valid_from` or
`valid_to` date equals `day`, if the location holds `p` its `get_value` result
is appended (the distance cutoff is not consulted). -/
def dailyValues (t day : Int) (p : Param) (k : AttrKey) : List TimeEntry → List (Option ℚ)
  | [] => []
  | e :: rest =>
    if t > e.valid_to then dailyValues t day p k rest
    else if dateOf e.valid_from = day ∨ dateOf e.valid_to = day then
      match lookupParam e.location p with
      | some pd => get_value pd k :: dailyValues t day p k rest
      | none => dailyValues t day p k rest
    else dailyValues t day p k rest

/-- The comparison `ordered_entries.sort(key=lambda item: item[0])` sorts by. -/
def distLE (a b : Int × TimeEntry) : Prop := a.1 ≤ b.1

instance : DecidableRel distLE := fun a b => inferInstanceAs (Decidable (a.1 ≤ b.1))

instance : IsTotal (Int × TimeEntry) distLE := ⟨fun a b => Int.le_total a.1 b.1⟩

instance : IsTrans (Int × TimeEntry) distLE := ⟨fun _ _ _ h h2 => le_trans h h2⟩

/-- `ordered_entries` after `.sort(key=lambda item: item[0])`; Python's sort is
stable, as is insertion sort with a `≤` comparison. -/
def selectedEntries (t mh : Int) (ts : List TimeEntry) : List (Int × TimeEntry) :=
  List.insertionSort distLE (candidates t mh ts)

/-- Python `max` over the remaining items, with `acc` the current best: each step
compares `item > acc`, a `TypeError` as soon as a comparison involves `None`. -/
def pymaxGo (acc : Option ℚ) : List (Option ℚ) → Except Unit (Option ℚ)
  | [] => .ok acc
  | x :: rest =>
    match x, acc with
    | some a, some b => pymaxGo (if b < a then some a else some b) rest
    | _, _ => .error ()

/-- Python `max(list)`: empty input raises, a singleton is returned uncompared. -/
def pymax : List (Option ℚ) → Except Unit (Option ℚ)
  | [] => .error ()
  | x :: rest => pymaxGo x rest

/-- Python `min` over the remaining items (comparison `item < acc`). -/
def pyminGo (acc : Option ℚ) : List (Option ℚ) → Except Unit (Option ℚ)
  | [] => .ok acc
  | x :: rest =>
    match x, acc with
    | some a, some b => pyminGo (if a < b then some a else some b) rest
    | _, _ => .error ()

def pymin : List (Option ℚ) → Except Unit (Option ℚ)
  | [] => .error ()
  | x :: rest => pyminGo x rest

/-- Python `sum`: fold `+` from `0`; adding `None` raises `TypeError`. -/
def pysumGo (acc : ℚ) : List (Option ℚ) → Except Unit ℚ
  | [] => .ok acc
  | some q :: rest => pysumGo (acc + q) rest
  | none :: _ => .error ()

def pysum (l : List (Option ℚ)) : Except Unit ℚ := pysumGo 0 l

/-- `None if lst == [] else f(lst)` for the min/max daily aggregates. -/
def aggNull (f : List (Option ℚ) → Except Unit (Option ℚ)) (l : List (Option ℚ)) :
    Except Unit (Option ℚ) :=
  if l = [] then .ok none else f l

/-- `None if lst == [] else round(sum(lst), 1)` for the precipitation aggregate. -/
def aggPrec (l : List (Option ℚ)) : Except Unit (Option ℚ) :=
  if l = [] then .ok none else (pysum l).map (fun s => some (round1 s))

/-- The forecast document: `self.data['product']['time']`. -/
structure Document where
  times : List TimeEntry
deriving DecidableEq, Repr

/-- `WeatherData.get_weather(time, max_hour=6, hourly=False)`.  The result dict is
an ordered key/value list; `{}` is `[]`; an escaping `TypeError` is `.error ()`. -/
def get_weather (data : Option Document) (time : Int) (max_hour : Int := 6)
    (hourly : Bool := false) : Except Unit (List (String × Option Value)) :=
  match data with
  | none => .ok []
  | some doc =>
    let day := dateOf time
    let daily_temperatures := dailyValues time day .temperature .value doc.times
    let daily_precipitation := dailyValues time day .precipitation .value doc.times
    let daily_windspeed := dailyValues time day .windSpeed .mps doc.times
    let daily_windgust := dailyValues time day .windGust .mps doc.times
    if candidates time max_hour doc.times = [] then .ok []
    else
      let ordered_entries := selectedEntries time max_hour doc.times
      let base : List (String × Option Value) :=
        [("datetime", some (.time time)),
         ("condition", get_data .symbol ordered_entries),
         ("pressure", get_data .pressure ordered_entries),
         ("humidity", get_data .humidity ordered_entries),
         ("wind_bearing", get_data .windDirection ordered_entries)]
      if hourly then
        .ok (base ++
          [("temperature", get_data .temperature ordered_entries),
           ("precipitation", get_data .precipitation ordered_entries),
           ("wind_speed", get_data .windSpeed ordered_entries),
           ("wind_gust", get_data .windGust ordered_entries),
           ("cloudiness", get_data .cloudiness ordered_entries)])
      else do
        let tmax ← aggNull pymax daily_temperatures
        let tmin ← aggNull pymin daily_temperatures
        let psum ← aggPrec daily_precipitation
        let wsmax ← aggNull pymax daily_windspeed
        let wgmax ← aggNull pymax daily_windgust
        .ok (base ++
          [("temperature", tmax.map Value.num),
           ("templow", tmin.map Value.num),
           ("precipitation", psum.map Value.num),
           ("wind_speed", wsmax.map Value.num),
           ("wind_gust", wgmax.map Value.num)])

/-- `now.replace(minute=0, second=0, microsecond=0)`. -/
def truncHour (now : Int) : Int := now.fdiv 3600 * 3600

/-- `now.replace(hour=12, minute=0, second=0, microsecond=0)`. -/
def noonOf (now : Int) : Int := now.fdiv 86400 * 86400 + 12 * 3600

/-- `WeatherData.get_forecast(time_zone, hourly)`, with `now` made explicit:
24 hourly instants `now+1h .. now+24h` from the truncated hour, or 5 daily
instants at local noon, day 1 through day 5. -/
def get_forecast (data : Option Document) (now : Int) (hourly : Bool := false) :
    List (Except Unit (List (String × Option Value))) :=
  match data with
  | none => []
  | some doc =>
    if hourly then
      (List.range 24).map (fun k => get_weather (some doc) (truncHour now + 3600 * ((k : Int) + 1)) 6 true)
    else
      (List.range 5).map (fun k => get_weather (some doc) (noonOf now + 86400 * ((k : Int) + 1)) 6 false)

/-- `WeatherData.get_current_weather()` at the given current instant. -/
def get_current_weather (data : Option Document) (now : Int) :
    Except Unit (List (String × Option Value)) :=
  get_weather data now

/-- A warning timestamp field: `str t off` is a well-formed timestamp string
denoting UTC instant `t` with UTC offset `off` seconds; `dt t off` is the
parsed timezone-aware datetime with the same meaning. -/
inductive WarnTime
  | str (t off : Int)
  | dt (t off : Int)
deriving DecidableEq, Repr

/-- One warning record (passthrough fields beyond `type` and the four
timestamps are irrelevant to the engine and omitted). -/
structure WarnEntry where
  type : String
  issued : WarnTime
  updated : WarnTime
  onset : WarnTime
  expiry : WarnTime
deriving DecidableEq, Repr

/-- The stored fetch result `{'count': len(json), 'warnings': json}`. -/
structure WarnData where
  count : Nat
  warnings : List WarnEntry
deriving DecidableEq, Repr

/-- The mutable fields of a `WarningData` object that `get_warnings` touches. -/
structure WarningState where
  ignore_blight : Bool
  convert_to_utc : Bool
  data : Option WarnData
deriving DecidableEq, Repr

/-- `format_warning_date(date_str, convert_to_utc)`: `strptime` a string and
optionally convert to UTC.  Applied to an already-parsed datetime (not a
string), `strptime` raises a `TypeError`. -/
def format_warning_date (d : WarnTime) (convert_to_utc : Bool) : Except Unit WarnTime :=
  match d with
  | .str t off => if convert_to_utc then .ok (.dt t 0) else .ok (.dt t off)
  | .dt _ _ => .error ()

/-- The per-entry timestamp update block of `get_warnings` (assignments to
`entry['issued']`, `entry['updated']`, `entry['onset']`, `entry['expiry']`). -/
def normalizeEntry (conv : Bool) (e : WarnEntry) : Except Unit WarnEntry := do
  let i ← format_warning_date e.issued conv
  let u ← format_warning_date e.updated conv
  let o ← format_warning_date e.onset conv
  let x ← format_warning_date e.expiry conv
  .ok { e with issued := i, updated := u, onset := o, expiry := x }

/-- `str.lower()` on ASCII data. -/
def lowerStr (s : String) : String := ⟨s.data.map Char.toLower⟩

/-- The filter `entry['type'].lower() != 'blight'`. -/
def keepWarning (e : WarnEntry) : Bool := lowerStr e.type != "blight"

/-- The `for entry in self.data['warnings']` timestamp-update loop.  (On an
exception Python leaves earlier entries mutated; the escaping error is the
same, and no claim depends on the partially-mutated stored list.) -/
def normalizeAll (conv : Bool) : List WarnEntry → Except Unit (List WarnEntry)
  | [] => .ok []
  | e :: rest => do
    let e' ← normalizeEntry conv e
    let rest' ← normalizeAll conv rest
    .ok (e' :: rest')

/-- `WarningData.get_warnings()`, with the object's mutation made explicit: the
result is returned together with the post-call state (the stored entries'
timestamp fields are replaced in place). -/
def get_warnings (s : WarningState) : Except Unit (WarnData × WarningState) :=
  match s.data with
  | none => .ok (⟨0, []⟩, s)
  | some d => do
    let ws ← normalizeAll s.convert_to_utc d.warnings
    let s' : WarningState := { s with data := some ⟨d.count, ws⟩ }
    if s.ignore_blight then
      let new_warnings_list := ws.filter keepWarning
      .ok (⟨new_warnings_list.length, new_warnings_list⟩, s')
    else
      .ok (⟨d.count, ws⟩, s')

/-- The static region-code table `REGION_MAP`. -/
def REGION_MAP : List (String × String) :=
  [("EI01", "Carlow"), ("EI02", "Cavan"), ("EI03", "Clare"), ("EI04", "Cork"),
   ("EI06", "Donegal"), ("EI07", "Dublin"), ("EI10", "Galway"), ("EI11", "Kerry"),
   ("EI12", "Kildare"), ("EI13", "Kilkenny"), ("EI15", "Laois"), ("EI14", "Leitrim"),
   ("EI16", "Limerick"), ("EI18", "Longford"), ("EI19", "Louth"), ("EI20", "Mayo"),
   ("EI21", "Meath"), ("EI22", "Monaghan"), ("EI23", "Offaly"), ("EI24", "Roscommon"),
   ("EI25", "Sligo"), ("EI26", "Tipperary"), ("EI27", "Waterford"), ("EI29", "Westmeath"),
   ("EI30", "Wexford"), ("EI31", "Wicklow"),
   ("EI805", "Malin-Fair"), ("EI806", "Fair-Belfast"), ("EI807", "Belfast-Strang"),
   ("EI808", "Strang-Carl"), ("EI809", "Carling-Howth"), ("EI810", "Howth-Wicklow"),
   ("EI811", "Wicklow-Carns"), ("EI812", "Carns-Hook"), ("EI813", "Hook-Dungarvan"),
   ("EI814", "Dungarvan-Roches"), ("EI815", "Roches-Mizen"), ("EI816", "Mizen-Valentia"),
   ("EI817", "Valentia-Loop"), ("EI818", "Loop-Slayne"), ("EI819", "Slayne-Ennis"),
   ("EI820", "Erris-Rossan"), ("EI821", "Rossan-BloodyF"), ("EI822", "BloodyF-Malin"),
   ("EI823", "IrishSea-South"), ("EI824", "IrishSea-IOM-S"), ("EI825", "IrishSea-IOM-N")]

/-- `str.upper()` on ASCII data. -/
def upperStr (s : String) : String := ⟨s.data.map Char.toUpper⟩

/-- `s.startswith('EI')`. -/
def startsWithEI (s : String) : Bool :=
  match s.data with
  | 'E' :: 'I' :: _ => true
  | _ => false

/-- The region-resolution block of `WarningData.__init__`: when the region does
not start with `EI` and is not `IRELAND` after uppercasing, look the name up in
`REGION_MAP`; `keys[0]` on an empty match list raises an `IndexError`. -/
def resolve_region (region : String) : Except Unit String :=
  if !startsWithEI (upperStr region) && upperStr region != "IRELAND" then
    match REGION_MAP.filter (fun p => p.2 == region) with
    | [] => .error ()
    | p :: _ => .ok (upperStr p.1)
  else
    .ok (upperStr region)

/-! ## Helper lemmas -/

theorem mem_candidates {t mh : Int} {ts : List TimeEntry} {p : Int × TimeEntry} :
    p ∈ candidates t mh ts ↔
      p.2 ∈ ts ∧ p.1 = dist p.2 t ∧ ¬t > p.2.valid_to ∧ ¬dist p.2 t > mh * 3600 := by
  induction ts with
  | nil => simp [candidates]
  | cons e rest ih =>
    by_cases h1 : t > e.valid_to
    · rw [candidates, if_pos h1, ih]
      constructor
      · rintro ⟨hm, hd, h2, h3⟩
        exact ⟨List.mem_cons_of_mem _ hm, hd, h2, h3⟩
      · rintro ⟨hm, hd, h2, h3⟩
        rcases List.mem_cons.mp hm with he | hm'
        · exact absurd (he ▸ h1) h2
        · exact ⟨hm', hd, h2, h3⟩
    · by_cases h2 : dist e t > mh * 3600
      · rw [candidates, if_neg h1, if_pos h2, ih]
        constructor
        · rintro ⟨hm, hd, ha, hb⟩
          exact ⟨List.mem_cons_of_mem _ hm, hd, ha, hb⟩
        · rintro ⟨hm, hd, ha, hb⟩
          rcases List.mem_cons.mp hm with he | hm'
          · exact absurd (he ▸ h2) (hd ▸ hb)
          · exact ⟨hm', hd, ha, hb⟩
      · rw [candidates, if_neg h1, if_neg h2, List.mem_cons, ih]
        constructor
        · rintro (hp | ⟨hm, hd, ha, hb⟩)
          · obtain ⟨hp1, hp2⟩ := Prod.mk.injEq .. ▸ hp
            refine ⟨?_, ?_, ?_, ?_⟩ <;> simp [hp1, hp2, h1, h2]
          · exact ⟨List.mem_cons_of_mem _ hm, hd, ha, hb⟩
        · rintro ⟨hm, hd, ha, hb⟩
          rcases List.mem_cons.mp hm with he | hm'
          · left
            rw [Prod.ext_iff]
            exact ⟨by rw [hd, he], he⟩
          · right
            exact ⟨hm', hd, ha, hb⟩

theorem mem_selectedEntries {t mh : Int} {ts : List TimeEntry} {p : Int × TimeEntry} :
    p ∈ selectedEntries t mh ts ↔ p ∈ candidates t mh ts :=
  (List.perm_insertionSort distLE _).mem_iff

theorem filter_orderedInsert_key (d : Int) (a : Int × TimeEntry) (l : List (Int × TimeEntry)) :
    (List.orderedInsert distLE a l).filter (fun p => p.1 == d) =
      if a.1 = d then a :: l.filter (fun p => p.1 == d) else l.filter (fun p => p.1 == d) := by
  induction l with
  | nil =>
    by_cases had : a.1 = d <;> simp [List.orderedInsert, List.filter_cons, had]
  | cons b l ih =>
    rw [List.orderedInsert]
    by_cases hab : distLE a b
    · rw [if_pos hab]
      by_cases had : a.1 = d <;> simp [List.filter_cons, had]
    · rw [if_neg hab]
      have hba : b.1 < a.1 := lt_of_not_le hab
      by_cases had : a.1 = d
      · have hbd : ¬b.1 = d := by
          intro hbd
          exact absurd (had ▸ hbd ▸ hba) (lt_irrefl _)
        simp [List.filter_cons, hbd, ih, had]
      · by_cases hbd : b.1 = d <;> simp [List.filter_cons, hbd, ih, had]

theorem filter_insertionSort_key (d : Int) (l : List (Int × TimeEntry)) :
    (List.insertionSort distLE l).filter (fun p => p.1 == d) = l.filter (fun p => p.1 == d) := by
  induction l with
  | nil => rfl
  | cons a l ih =>
    rw [List.insertionSort, filter_orderedInsert_key]
    by_cases h : a.1 = d <;> simp [List.filter_cons, h, ih]

/-- C1: an entry of the fetched document is absent from the selection built by
`get_weather` exactly when the target instant lies strictly past its
`valid_to`, or its distance `|valid_to − t| + |valid_from − t|` exceeds
`max_hour × 3600` seconds (the `get_weather` default for `max_hour` is 6);
equivalently, a document entry is selected (with its distance score) iff it is
not elapsed and within the distance window.  In particular an elapsed entry is
never selected, whatever its distance. -/
theorem C1_selection_rule (t mh : Int) (ts : List TimeEntry) (e : TimeEntry)
    (he : e ∈ ts) :
    (dist e t, e) ∈ selectedEntries t mh ts ↔
      ¬(t > e.valid_to ∨ dist e t > mh * 3600) := by
  rw [mem_selectedEntries, mem_candidates, not_or]
  simp [he]

def eW1 : TimeEntry := ⟨0, 0, []⟩

/-- Witness for C1 at a concrete entry and the default `max_hour = 6`. -/
theorem C1_selection_rule_witness :
    eW1 ∈ [eW1] ∧
      ((dist eW1 0, eW1) ∈ selectedEntries 0 6 [eW1] ↔
        ¬((0 : Int) > eW1.valid_to ∨ dist eW1 0 > 6 * 3600)) :=
  ⟨by decide, C1_selection_rule 0 6 [eW1] eW1 (by decide)⟩

/-- C2: the selection `get_weather` works on is sorted by non-decreasing
distance, and is stable: for every distance value, the sub-list of scored
entries carrying that distance is exactly the one produced by the selection
scan in original document order. -/
theorem C2_sorted_stable (t mh : Int) (ts : List TimeEntry) :
    List.Sorted distLE (selectedEntries t mh ts) ∧
      ∀ d : Int, (selectedEntries t mh ts).filter (fun p => p.1 == d) =
        (candidates t mh ts).filter (fun p => p.1 == d) :=
  ⟨List.sorted_insertionSort distLE _, fun d => filter_insertionSort_key d _⟩

/-- C3: `get_data` returns the branch-table value of the first scored entry (in
selection order) whose location mapping contains the parameter — even when that
value fails to parse — and `none` when no entry contains it. -/
theorem C3_first_hit (p : Param) (data : List (Int × TimeEntry)) :
    get_data p data =
      (data.find? (fun q => containsParam q.2 p)).bind (fun q => extractEntry p q.2) := by
  induction data with
  | nil => rfl
  | cons a rest ih =>
    obtain ⟨d0, e⟩ := a
    by_cases hc : containsParam e p
    · have hc' : (fun q : ℤ × TimeEntry => containsParam q.2 p) (d0, e) = true := hc
      rw [@List.find?_cons_of_pos _ (fun q : ℤ × TimeEntry => containsParam q.2 p) (d0, e) rest hc']
      cases hpd : lookupParam e.location p with
      | none => simp [containsParam, hpd] at hc
      | some pd => simp [get_data, hpd, extractEntry]
    · have hc' : ¬(fun q : ℤ × TimeEntry => containsParam q.2 p) (d0, e) = true := hc
      rw [@List.find?_cons_of_neg _ (fun q : ℤ × TimeEntry => containsParam q.2 p) (d0, e) rest hc']
      have hnone : lookupParam e.location p = none := by
        cases hpd : lookupParam e.location p with
        | none => rfl
        | some pd => exact absurd (by simp [containsParam, hpd]) hc
      simp [get_data, hnone, ih]

theorem pymaxGo_ok (l : List (Option ℚ)) :
    ∀ (b : ℚ) (v : Option ℚ), pymaxGo (some b) l = .ok v →
      ∃ q, v = some q ∧ (q = b ∨ some q ∈ l) ∧ b ≤ q ∧ ∀ x : ℚ, some x ∈ l → x ≤ q := by
  induction l with
  | nil =>
    intro b v h
    refine ⟨b, ?_, Or.inl rfl, le_refl b, fun x hx => absurd hx (List.not_mem_nil _)⟩
    simpa [pymaxGo] using h.symm
  | cons x rest ih =>
    intro b v h
    cases x with
    | none => simp [pymaxGo] at h
    | some a =>
      rw [pymaxGo] at h
      by_cases hba : b < a
      · rw [if_pos hba] at h
        obtain ⟨q, hv, hmem, hle, hall⟩ := ih a v h
        refine ⟨q, hv, ?_, le_of_lt (lt_of_lt_of_le hba hle), ?_⟩
        · rcases hmem with hq | hq
          · exact Or.inr (hq ▸ List.mem_cons_self _ _)
          · exact Or.inr (List.mem_cons_of_mem _ hq)
        · intro y hy
          rcases List.mem_cons.mp hy with hy' | hy'
          · exact (Option.some_inj.mp hy') ▸ hle
          · exact hall y hy'
      · rw [if_neg hba] at h
        obtain ⟨q, hv, hmem, hle, hall⟩ := ih b v h
        refine ⟨q, hv, ?_, hle, ?_⟩
        · rcases hmem with hq | hq
          · exact Or.inl hq
          · exact Or.inr (List.mem_cons_of_mem _ hq)
        · intro y hy
          rcases List.mem_cons.mp hy with hy' | hy'
          · have hya : y = a := Option.some_inj.mp hy'
            exact le_trans (hya ▸ le_of_not_lt hba) hle
          · exact hall y hy'

theorem pymax_ok_some (l : List (Option ℚ)) (q : ℚ) (h : pymax l = .ok (some q)) :
    some q ∈ l ∧ ∀ x : ℚ, some x ∈ l → x ≤ q := by
  cases l with
  | nil => simp [pymax] at h
  | cons x rest =>
    rw [pymax] at h
    cases x with
    | none =>
      cases rest with
      | nil => simp [pymaxGo] at h
      | cons y rest' => simp [pymaxGo] at h
    | some b =>
      obtain ⟨q', hv, hmem, hle, hall⟩ := pymaxGo_ok rest b (some q) h
      have hq : q' = q := Option.some_inj.mp hv.symm
      subst hq
      constructor
      · rcases hmem with hq | hq
        · exact hq ▸ List.mem_cons_self _ _
        · exact List.mem_cons_of_mem _ hq
      · intro y hy
        rcases List.mem_cons.mp hy with hy' | hy'
        · exact (Option.some_inj.mp hy') ▸ hle
        · exact hall y hy'

theorem pyminGo_ok (l : List (Option ℚ)) :
    ∀ (b : ℚ) (v : Option ℚ), pyminGo (some b) l = .ok v →
      ∃ q, v = some q ∧ (q = b ∨ some q ∈ l) ∧ q ≤ b ∧ ∀ x : ℚ, some x ∈ l → q ≤ x := by
  induction l with
  | nil =>
    intro b v h
    refine ⟨b, ?_, Or.inl rfl, le_refl b, fun x hx => absurd hx (List.not_mem_nil _)⟩
    simpa [pyminGo] using h.symm
  | cons x rest ih =>
    intro b v h
    cases x with
    | none => simp [pyminGo] at h
    | some a =>
      rw [pyminGo] at h
      by_cases hab : a < b
      · rw [if_pos hab] at h
        obtain ⟨q, hv, hmem, hle, hall⟩ := ih a v h
        refine ⟨q, hv, ?_, le_of_lt (lt_of_le_of_lt hle hab), ?_⟩
        · rcases hmem with hq | hq
          · exact Or.inr (hq ▸ List.mem_cons_self _ _)
          · exact Or.inr (List.mem_cons_of_mem _ hq)
        · intro y hy
          rcases List.mem_cons.mp hy with hy' | hy'
          · exact (Option.some_inj.mp hy') ▸ hle
          · exact hall y hy'
      · rw [if_neg hab] at h
        obtain ⟨q, hv, hmem, hle, hall⟩ := ih b v h
        refine ⟨q, hv, ?_, hle, ?_⟩
        · rcases hmem with hq | hq
          · exact Or.inl hq
          · exact Or.inr (List.mem_cons_of_mem _ hq)
        · intro y hy
          rcases List.mem_cons.mp hy with hy' | hy'
          · have hya : y = a := Option.some_inj.mp hy'
            exact hya ▸ le_trans hle (le_of_not_lt hab)
          · exact hall y hy'

theorem pymin_ok_some (l : List (Option ℚ)) (q : ℚ) (h : pymin l = .ok (some q)) :
    some q ∈ l ∧ ∀ x : ℚ, some x ∈ l → q ≤ x := by
  cases l with
  | nil => simp [pymin] at h
  | cons x rest =>
    rw [pymin] at h
    cases x with
    | none =>
      cases rest with
      | nil => simp [pyminGo] at h
      | cons y rest' => simp [pyminGo] at h
    | some b =>
      obtain ⟨q', hv, hmem, hle, hall⟩ := pyminGo_ok rest b (some q) h
      have hq : q' = q := Option.some_inj.mp hv.symm
      subst hq
      constructor
      · rcases hmem with hq | hq
        · exact hq ▸ List.mem_cons_self _ _
        · exact List.mem_cons_of_mem _ hq
      · intro y hy
        rcases List.mem_cons.mp hy with hy' | hy'
        · exact (Option.some_inj.mp hy') ▸ hle
        · exact hall y hy'

theorem pysumGo_ok (l : List (Option ℚ)) :
    ∀ (acc s : ℚ), pysumGo acc l = .ok s → s = acc + (l.filterMap id).sum := by
  induction l with
  | nil =>
    intro acc s h
    have : acc = s := by simpa [pysumGo] using h
    simp [this.symm]
  | cons x rest ih =>
    intro acc s h
    cases x with
    | none => simp [pysumGo] at h
    | some q =>
      rw [pysumGo] at h
      have := ih (acc + q) s h
      simp [List.filterMap_cons, this]
      ring

theorem pysum_ok (l : List (Option ℚ)) (s : ℚ) (h : pysum l = .ok s) :
    s = (l.filterMap id).sum := by
  simpa using pysumGo_ok l 0 s h

theorem dailyValues_eq_filter (t day : Int) (p : Param) (k : AttrKey) (ts : List TimeEntry) :
    dailyValues t day p k ts =
      (ts.filter (fun e => !decide (t > e.valid_to) &&
          (decide (dateOf e.valid_from = day) || decide (dateOf e.valid_to = day)) &&
          containsParam e p)).map (fun e =>
        match lookupParam e.location p with
        | some pd => get_value pd k
        | none => none) := by
  induction ts with
  | nil => rfl
  | cons e rest ih =>
    by_cases h1 : t > e.valid_to
    · rw [dailyValues, if_pos h1]
      simp [List.filter_cons, h1, ih]
    · by_cases h2 : dateOf e.valid_from = day ∨ dateOf e.valid_to = day
      · rw [dailyValues, if_neg h1, if_pos h2]
        cases hpd : lookupParam e.location p with
        | none =>
          have hcp : containsParam e p = false := by simp [containsParam, hpd]
          rcases h2 with h2 | h2 <;> simp [List.filter_cons, h1, h2, hcp, ih]
        | some pd =>
          have hcp : containsParam e p = true := by simp [containsParam, hpd]
          rcases h2 with h2 | h2 <;> simp [List.filter_cons, h1, h2, hcp, hpd, ih]
      · rw [dailyValues, if_neg h1, if_neg h2]
        push_neg at h2
        simp [List.filter_cons, h1, h2.1, h2.2, ih]

/-- C4: in daily mode (`hourly = False`) the aggregation sets are exactly the
`get_value` results of the non-elapsed entries whose `valid_from` or `valid_to`
date equals the target day, independent of the `max_hour` cutoff; the snapshot
carries the Python `max` of the temperature set, its `min` as `templow`, the
sum of the precipitation set rounded to one decimal, and the `max` of the wind
speed/gust sets; every aggregate whose collected set is empty is `None` (not
zero and not an exception). -/
theorem C4_daily_aggregates (doc : Document) (t mh : Int)
    (tq lq pq wq gq : Option ℚ)
    (hsel : candidates t mh doc.times ≠ [])
    (hT : aggNull pymax (dailyValues t (dateOf t) .temperature .value doc.times) = .ok tq)
    (hL : aggNull pymin (dailyValues t (dateOf t) .temperature .value doc.times) = .ok lq)
    (hP : aggPrec (dailyValues t (dateOf t) .precipitation .value doc.times) = .ok pq)
    (hW : aggNull pymax (dailyValues t (dateOf t) .windSpeed .mps doc.times) = .ok wq)
    (hG : aggNull pymax (dailyValues t (dateOf t) .windGust .mps doc.times) = .ok gq) :
    get_weather (some doc) t mh false = .ok
      [("datetime", some (.time t)),
       ("condition", get_data .symbol (selectedEntries t mh doc.times)),
       ("pressure", get_data .pressure (selectedEntries t mh doc.times)),
       ("humidity", get_data .humidity (selectedEntries t mh doc.times)),
       ("wind_bearing", get_data .windDirection (selectedEntries t mh doc.times)),
       ("temperature", tq.map Value.num),
       ("templow", lq.map Value.num),
       ("precipitation", pq.map Value.num),
       ("wind_speed", wq.map Value.num),
       ("wind_gust", gq.map Value.num)] ∧
    (∀ (p : Param) (k : AttrKey), dailyValues t (dateOf t) p k doc.times =
      (doc.times.filter (fun e => !decide (t > e.valid_to) &&
          (decide (dateOf e.valid_from = dateOf t) || decide (dateOf e.valid_to = dateOf t)) &&
          containsParam e p)).map (fun e =>
        match lookupParam e.location p with
        | some pd => get_value pd k
        | none => none)) ∧
    (dailyValues t (dateOf t) .temperature .value doc.times = [] → tq = none ∧ lq = none) ∧
    (dailyValues t (dateOf t) .precipitation .value doc.times = [] → pq = none) ∧
    (dailyValues t (dateOf t) .windSpeed .mps doc.times = [] → wq = none) ∧
    (dailyValues t (dateOf t) .windGust .mps doc.times = [] → gq = none) ∧
    (∀ q : ℚ, tq = some q →
      some q ∈ dailyValues t (dateOf t) .temperature .value doc.times ∧
      ∀ x : ℚ, some x ∈ dailyValues t (dateOf t) .temperature .value doc.times → x ≤ q) ∧
    (∀ q : ℚ, lq = some q →
      some q ∈ dailyValues t (dateOf t) .temperature .value doc.times ∧
      ∀ x : ℚ, some x ∈ dailyValues t (dateOf t) .temperature .value doc.times → q ≤ x) ∧
    (∀ s : ℚ, pysum (dailyValues t (dateOf t) .precipitation .value doc.times) = .ok s →
      dailyValues t (dateOf t) .precipitation .value doc.times ≠ [] →
      pq = some (round1 s) ∧
      s = ((dailyValues t (dateOf t) .precipitation .value doc.times).filterMap id).sum) ∧
    (∀ q : ℚ, wq = some q →
      some q ∈ dailyValues t (dateOf t) .windSpeed .mps doc.times ∧
      ∀ x : ℚ, some x ∈ dailyValues t (dateOf t) .windSpeed .mps doc.times → x ≤ q) ∧
    (∀ q : ℚ, gq = some q →
      some q ∈ dailyValues t (dateOf t) .windGust .mps doc.times ∧
      ∀ x : ℚ, some x ∈ dailyValues t (dateOf t) .windGust .mps doc.times → x ≤ q) := by
  have hTq : ∀ q : ℚ, tq = some q →
      pymax (dailyValues t (dateOf t) .temperature .value doc.times) = .ok (some q) := by
    intro q hq
    rw [aggNull] at hT
    by_cases he : dailyValues t (dateOf t) .temperature .value doc.times = []
    · rw [if_pos he] at hT
      rw [hq] at hT
      simp at hT
    · rw [if_neg he] at hT
      rw [hq] at hT
      exact hT
  have hLq : ∀ q : ℚ, lq = some q →
      pymin (dailyValues t (dateOf t) .temperature .value doc.times) = .ok (some q) := by
    intro q hq
    rw [aggNull] at hL
    by_cases he : dailyValues t (dateOf t) .temperature .value doc.times = []
    · rw [if_pos he] at hL
      rw [hq] at hL
      simp at hL
    · rw [if_neg he] at hL
      rw [hq] at hL
      exact hL
  have hWq : ∀ q : ℚ, wq = some q →
      pymax (dailyValues t (dateOf t) .windSpeed .mps doc.times) = .ok (some q) := by
    intro q hq
    rw [aggNull] at hW
    by_cases he : dailyValues t (dateOf t) .windSpeed .mps doc.times = []
    · rw [if_pos he] at hW
      rw [hq] at hW
      simp at hW
    · rw [if_neg he] at hW
      rw [hq] at hW
      exact hW
  have hGq : ∀ q : ℚ, gq = some q →
      pymax (dailyValues t (dateOf t) .windGust .mps doc.times) = .ok (some q) := by
    intro q hq
    rw [aggNull] at hG
    by_cases he : dailyValues t (dateOf t) .windGust .mps doc.times = []
    · rw [if_pos he] at hG
      rw [hq] at hG
      simp at hG
    · rw [if_neg he] at hG
      rw [hq] at hG
      exact hG
  refine ⟨?_, ?_, ?_, ?_, ?_, ?_, ?_, ?_, ?_, ?_, ?_⟩
  · simp only [get_weather, hsel, if_false, Bool.false_eq_true, ite_false, hT, hL, hP, hW, hG]
    rfl
  · intro p k
    exact dailyValues_eq_filter t (dateOf t) p k doc.times
  · intro h
    rw [h] at hT hL
    simp [aggNull] at hT hL
    exact ⟨hT.symm, hL.symm⟩
  · intro h
    rw [h] at hP
    simp [aggPrec] at hP
    exact hP.symm
  · intro h
    rw [h] at hW
    simp [aggNull] at hW
    exact hW.symm
  · intro h
    rw [h] at hG
    simp [aggNull] at hG
    exact hG.symm
  · intro q hq
    exact pymax_ok_some _ q (hTq q hq)
  · intro q hq
    exact pymin_ok_some _ q (hLq q hq)
  · intro s hs hne
    rw [aggPrec, if_neg hne, hs] at hP
    simp [Except.map] at hP
    exact ⟨hP.symm, pysum_ok _ s hs⟩
  · intro q hq
    exact pymax_ok_some _ q (hWq q hq)
  · intro q hq
    exact pymax_ok_some _ q (hGq q hq)

def pdUnp : ParamData := ⟨.unparseable, .missing, .missing, .missing, none⟩

def docW4 : Document := ⟨[⟨0, 0, [(.temperature, pdUnp)]⟩]⟩

/-- Witness for C4 at a concrete document (one entry on the target day whose
temperature fails to parse; the other daily sets are empty, so every
aggregate is `None`). -/
theorem C4_daily_aggregates_witness :
    candidates 0 6 docW4.times ≠ [] ∧
      get_weather (some docW4) 0 6 false = .ok
        [("datetime", some (.time 0)),
         ("condition", get_data .symbol (selectedEntries 0 6 docW4.times)),
         ("pressure", get_data .pressure (selectedEntries 0 6 docW4.times)),
         ("humidity", get_data .humidity (selectedEntries 0 6 docW4.times)),
         ("wind_bearing", get_data .windDirection (selectedEntries 0 6 docW4.times)),
         ("temperature", Option.map Value.num none),
         ("templow", Option.map Value.num none),
         ("precipitation", Option.map Value.num none),
         ("wind_speed", Option.map Value.num none),
         ("wind_gust", Option.map Value.num none)] :=
  ⟨by decide,
   (C4_daily_aggregates docW4 0 6 none none none none none (by decide) rfl rfl rfl rfl rfl).1⟩

def docC5 : Document := ⟨[⟨0, 0, [(.precipitation, pdUnp)]⟩]⟩

/-- C5 shows a code bug: on a document whose only (selected, same-day) entry
has an unparseable precipitation value, the hourly snapshot correctly reports
`None` for that field, but the daily call crashes — `sum(daily_precipitation)`
adds `None` to `0`, a `TypeError` — instead of returning a snapshot. -/
theorem C5_daily_parse_failure_raises :
    get_weather (some docC5) 0 6 true = .ok
      [("datetime", some (.time 0)),
       ("condition", none),
       ("pressure", none),
       ("humidity", none),
       ("wind_bearing", none),
       ("temperature", none),
       ("precipitation", none),
       ("wind_speed", none),
       ("wind_gust", none),
       ("cloudiness", none)] ∧
    get_weather (some docC5) 0 6 false = .error () :=
  ⟨rfl, rfl⟩

def weWind : WarnEntry := ⟨"Wind", .str 0 0, .str 0 0, .str 0 0, .str 0 0⟩

def weWindDt : WarnEntry := ⟨"Wind", .dt 0 0, .dt 0 0, .dt 0 0, .dt 0 0⟩

def stC6 : WarningState := ⟨true, true, some ⟨1, [weWind]⟩⟩

def stC6' : WarningState := ⟨true, true, some ⟨1, [weWindDt]⟩⟩

/-- C6 shows a code bug: `get_warnings` mutates the stored timestamps into
datetime objects, so the first call succeeds but the second call passes a
datetime to `strptime`, raising a `TypeError` — the accessor is not
idempotent. -/
theorem C6_second_call_raises :
    get_warnings stC6 = .ok (⟨1, [weWindDt]⟩, stC6') ∧
      get_warnings stC6' = .error () :=
  ⟨rfl, rfl⟩

def isRawEntry (e : WarnEntry) : Bool :=
  match e.issued, e.updated, e.onset, e.expiry with
  | .str _ _, .str _ _, .str _ _, .str _ _ => true
  | _, _, _, _ => false

/-- What `format_warning_date` does to a (well-formed) string field. -/
def convRaw (conv : Bool) : WarnTime → WarnTime
  | .str t off => if conv then .dt t 0 else .dt t off
  | .dt t off => .dt t off

/-- One warning entry after its first (and only successful) normalization. -/
def normRaw (conv : Bool) (e : WarnEntry) : WarnEntry :=
  ⟨e.type, convRaw conv e.issued, convRaw conv e.updated, convRaw conv e.onset,
   convRaw conv e.expiry⟩

theorem normalizeEntry_raw (conv : Bool) (e : WarnEntry) (h : isRawEntry e = true) :
    normalizeEntry conv e = .ok (normRaw conv e) := by
  obtain ⟨ty, i, u, o, x⟩ := e
  cases i <;> cases u <;> cases o <;> cases x <;>
    first
      | (cases conv <;> rfl)
      | simp [isRawEntry] at h

theorem normalizeAll_raw (conv : Bool) (l : List WarnEntry)
    (h : ∀ e ∈ l, isRawEntry e = true) :
    normalizeAll conv l = .ok (l.map (normRaw conv)) := by
  induction l with
  | nil => rfl
  | cons e rest ih =>
    simp only [normalizeAll, normalizeEntry_raw conv e (h e (List.mem_cons_self e rest)),
      ih (fun x hx => h x (List.mem_cons_of_mem _ hx)), List.map_cons]
    rfl

theorem filter_map_normRaw (conv : Bool) (l : List WarnEntry) :
    ((l.map (normRaw conv)).filter keepWarning).map (fun e => e.type) =
      (l.map (fun e => e.type)).filter (fun s => lowerStr s != "blight") := by
  induction l with
  | nil => rfl
  | cons e rest ih =>
    have hty : (normRaw conv e).type = e.type := rfl
    by_cases hk : (lowerStr e.type != "blight") = true
    · simp [List.filter_cons, keepWarning, hty, hk, ih]
    · simp [List.filter_cons, keepWarning, hty, hk, ih]

/-- C7: with category filtering enabled, `get_warnings` drops exactly the
normalized entries whose `type` is `blight` case-insensitively, keeps the
survivors in their original relative order (a `filter` of the normalized
list), and reports `count` equal to the filtered length; the surviving `type`
strings are the original ones with the blight entries removed, in order. -/
theorem C7_blight_filter (conv : Bool) (d : WarnData)
    (hraw : ∀ e ∈ d.warnings, isRawEntry e = true) :
    get_warnings ⟨true, conv, some d⟩ =
      .ok (⟨((d.warnings.map (normRaw conv)).filter keepWarning).length,
            (d.warnings.map (normRaw conv)).filter keepWarning⟩,
           ⟨true, conv, some ⟨d.count, d.warnings.map (normRaw conv)⟩⟩) ∧
    ((d.warnings.map (normRaw conv)).filter keepWarning).map (fun e => e.type) =
      (d.warnings.map (fun e => e.type)).filter (fun s => lowerStr s != "blight") := by
  constructor
  · simp only [get_warnings, normalizeAll_raw conv d.warnings hraw]
    rfl
  · exact filter_map_normRaw conv d.warnings

def weBlight : WarnEntry := ⟨"Blight", .str 0 0, .str 0 0, .str 0 0, .str 0 0⟩

def weRain : WarnEntry := ⟨"Rain", .str 0 0, .str 0 0, .str 0 0, .str 0 0⟩

def dW7 : WarnData := ⟨3, [weWind, weBlight, weRain]⟩

/-- Witness for C7: input types `Wind`, `Blight`, `Rain` yield `count = 2`
with `Wind` and `Rain` surviving in that order. -/
theorem C7_blight_filter_witness :
    (∀ e ∈ dW7.warnings, isRawEntry e = true) ∧
      get_warnings ⟨true, true, some dW7⟩ =
        .ok (⟨2, [⟨"Wind", .dt 0 0, .dt 0 0, .dt 0 0, .dt 0 0⟩,
                  ⟨"Rain", .dt 0 0, .dt 0 0, .dt 0 0, .dt 0 0⟩]⟩,
             ⟨true, true, some ⟨3, [⟨"Wind", .dt 0 0, .dt 0 0, .dt 0 0, .dt 0 0⟩,
                                    ⟨"Blight", .dt 0 0, .dt 0 0, .dt 0 0, .dt 0 0⟩,
                                    ⟨"Rain", .dt 0 0, .dt 0 0, .dt 0 0, .dt 0 0⟩]⟩⟩) :=
  ⟨by decide, by rw [(C7_blight_filter true dW7 (by decide)).1]; rfl⟩

/-- C8: whenever a wind speed/gust node carries a numeric `@mps` value `v`, the
value `get_value` produces — the one used both by closest-entry extraction
(`get_data`) and by the daily collection feeding min/max aggregation
(`dailyValues`) — is `round(v * 3.6, 1)`; in particular `v = 5` gives `18`. -/
theorem C8_wind_conversion (v : ℚ) (pd : ParamData) (h : pd.mps = .num v) :
    get_value pd .mps = some (round1 (v * 3.6)) ∧
    (∀ (d0 : Int) (e : TimeEntry) (rest : List (Int × TimeEntry)),
      lookupParam e.location .windSpeed = some pd →
        get_data .windSpeed ((d0, e) :: rest) = some (.num (round1 (v * 3.6)))) ∧
    (∀ (d0 : Int) (e : TimeEntry) (rest : List (Int × TimeEntry)),
      lookupParam e.location .windGust = some pd →
        get_data .windGust ((d0, e) :: rest) = some (.num (round1 (v * 3.6)))) ∧
    (∀ (t day : Int) (e : TimeEntry) (rest : List TimeEntry),
      ¬t > e.valid_to → (dateOf e.valid_from = day ∨ dateOf e.valid_to = day) →
      lookupParam e.location .windSpeed = some pd →
        dailyValues t day .windSpeed .mps (e :: rest) =
          some (round1 (v * 3.6)) :: dailyValues t day .windSpeed .mps rest) ∧
    (∀ (t day : Int) (e : TimeEntry) (rest : List TimeEntry),
      ¬t > e.valid_to → (dateOf e.valid_from = day ∨ dateOf e.valid_to = day) →
      lookupParam e.location .windGust = some pd →
        dailyValues t day .windGust .mps (e :: rest) =
          some (round1 (v * 3.6)) :: dailyValues t day .windGust .mps rest) ∧
    round1 ((5 : ℚ) * 3.6) = 18 := by
  have hgv : get_value pd .mps = some (round1 (v * 3.6)) := by
    simp [get_value, ParamData.attr, h]
  refine ⟨hgv, ?_, ?_, ?_, ?_, ?_⟩
  · intro d0 e rest hl
    simp [get_data, hl, extractParam, hgv]
  · intro d0 e rest hl
    simp [get_data, hl, extractParam, hgv]
  · intro t day e rest h1 h2 hl
    rw [dailyValues, if_neg h1, if_pos h2, hl]
    simp [hgv]
  · intro t day e rest h1 h2 hl
    rw [dailyValues, if_neg h1, if_pos h2, hl]
    simp [hgv]
  · have h536 : (5 : ℚ) * 3.6 = 18 := by norm_num
    have h1810 : (18 : ℚ) * 10 = 180 := by norm_num
    have hcast : (180 : ℚ) = ((180 : ℤ) : ℚ) := by norm_num
    have hfl : ⌊(180 : ℚ)⌋ = 180 := by rw [hcast, Int.floor_intCast]
    rw [h536, round1, h1810]
    simp only [rhe, hfl]
    norm_num

def pdW8 : ParamData := ⟨.missing, .num 5, .missing, .missing, none⟩

def eW8 : TimeEntry := ⟨0, 0, [(.windSpeed, pdW8)]⟩

/-- Witness for C8: a raw `@mps` of `5.0` is extracted and collected as `18.0`. -/
theorem C8_wind_conversion_witness :
    pdW8.mps = .num 5 ∧
      get_value pdW8 .mps = some 18 ∧
      get_data .windSpeed [(0, eW8)] = some (.num 18) ∧
      dailyValues 0 0 .windSpeed .mps [eW8] = [some 18] := by
  have h := C8_wind_conversion 5 pdW8 rfl
  refine ⟨rfl, ?_, ?_, ?_⟩
  · rw [h.1, h.2.2.2.2.2]
  · rw [h.2.1 0 eW8 [] rfl, h.2.2.2.2.2]
  · rw [h.2.2.2.1 0 0 eW8 [] (by decide) (Or.inl (by decide)) rfl, h.2.2.2.2.2]
    rfl

/-- C9: with no fetched document, `get_weather` returns the empty mapping,
`get_forecast` the empty sequence and `get_warnings` `{count: 0, warnings: []}`
(leaving the state untouched), none of them raising; and whenever the
selection scan retains zero entries, `get_weather` returns the empty mapping —
never a partial snapshot and never an exception. -/
theorem C9_empty_results :
    (∀ (t mh : Int) (hB : Bool), get_weather none t mh hB = .ok []) ∧
    (∀ (now : Int) (hB : Bool), get_forecast none now hB = []) ∧
    (∀ (ib cv : Bool), get_warnings ⟨ib, cv, none⟩ = .ok (⟨0, []⟩, ⟨ib, cv, none⟩)) ∧
    (∀ (doc : Document) (t mh : Int) (hB : Bool),
      candidates t mh doc.times = [] → get_weather (some doc) t mh hB = .ok []) := by
  refine ⟨fun _ _ _ => rfl, fun _ _ => rfl, fun _ _ => rfl, fun doc t mh hB hc => ?_⟩
  simp [get_weather, hc]

def docW9 : Document := ⟨[⟨-1, -1, []⟩]⟩

/-- Witness for C9 at a document whose only entry has already elapsed. -/
theorem C9_empty_results_witness :
    candidates 0 6 docW9.times = [] ∧ get_weather (some docW9) 0 6 false = .ok [] :=
  ⟨by decide, C9_empty_results.2.2.2 docW9 0 6 false (by decide)⟩

/-- C10: a region string that does not start with `EI` (case-insensitively),
is not `Ireland` (case-insensitively) and is not one of the names in
`REGION_MAP` makes the `WarningData` constructor raise an uncaught
`IndexError` (`keys[0]` on an empty list) instead of falling back. -/
theorem C10_unknown_region_raises (region : String)
    (h1 : startsWithEI (upperStr region) = false)
    (h2 : upperStr region ≠ "IRELAND")
    (h3 : ∀ p ∈ REGION_MAP, p.2 ≠ region) :
    resolve_region region = .error () := by
  have hfilter : REGION_MAP.filter (fun p => p.2 == region) = [] := by
    rw [List.filter_eq_nil_iff]
    intro p hp
    simpa using h3 p hp
  have hcond : (!startsWithEI (upperStr region) && upperStr region != "IRELAND") = true := by
    simp [h1, h2]
  rw [resolve_region, if_pos hcond, hfilter]

/-- Witness for C10: the region `Atlantis` raises. -/
theorem C10_unknown_region_raises_witness :
    (startsWithEI (upperStr "Atlantis") = false ∧ upperStr "Atlantis" ≠ "IRELAND" ∧
      ∀ p ∈ REGION_MAP, p.2 ≠ "Atlantis") ∧
    resolve_region "Atlantis" = .error () :=
  ⟨⟨by decide, by decide, by decide⟩,
   C10_unknown_region_raises "Atlantis" (by decide) (by decide) (by decide)⟩
